import Mathlib

set_option maxHeartbeats 1000000

/-!
Shallow embedding of the Composify repository (src/composify/types.py,
src/composify/utils.py and the service/include/subnet helpers used by
src/composify/cli/cli.py), together with proofs of the behavioural
properties stated about it.

YAML scalars, sequences and mappings that the program manipulates are
modelled by `YVal`; insertion-ordered Python dicts become association
lists; `ruamel` documents become explicit structures whose untouched
remainder is carried opaquely; fallible operations (`raise SystemExit`)
return `Except Err`.
-/

/-- A YAML value as emitted by the service projection: a scalar string, a
sequence of strings, a string-to-string mapping (insertion ordered), or an
explicit null. The program never emits `null`; the projection theorems
prove that. -/
inductive YVal where
  | str (v : String)
  | list (v : List String)
  | map (v : List (String × String))
  | null
deriving DecidableEq

/-- Error conditions surfaced by `raise SystemExit` / `click.BadParameter`
in the source, by taxonomy of the operations modelled here. -/
inductive Err where
  | notFound
  | missingSection
  | notAList
  | alreadyExists
  | exhausted
deriving DecidableEq

/-- The state of one top-level key of a loaded YAML document:
absent (or YAML null, which `data.get(k)` also reports as `None`),
present with the wrong runtime type, or present with a value. -/
inductive Sect (α : Type) where
  | absent
  | wrongType
  | val (v : α)
deriving DecidableEq

/-- Python's `str.split(",")` on the character level: split at every
comma; the empty string yields one empty token, as in Python. -/
def splitCommaAux : List Char → List Char → List (List Char)
  | [], acc => [acc.reverse]
  | c :: rest, acc =>
      if c = ',' then acc.reverse :: splitCommaAux rest []
      else splitCommaAux rest (c :: acc)

/-- Python's `str.strip()`: drop leading and trailing whitespace. -/
def pyStrip (t : List Char) : List Char :=
  ((t.dropWhile Char.isWhitespace).reverse.dropWhile Char.isWhitespace).reverse

/-- Python's `tok.split(",")` / `tok.strip()` / `if t:` tokenisation of
one profiles item: split on commas, strip whitespace, drop empty tokens
(src/composify/types.py, `_flatten_profiles` inner loop). -/
def splitTokens (s : String) : List String :=
  (((splitCommaAux s.data []).map (fun t => String.mk (pyStrip t))).filter
    (fun t => t ≠ ""))

/-- The raw `profiles` input accepted by the pydantic `before` validator:
`None`, a single string, or a list of strings. -/
def ProfilesInput : Type := Option (String ⊕ List String)

/-- `Service._flatten_profiles` (src/composify/types.py): `None` becomes
`[]`; a string is treated as a one-element list; every item is split on
commas, stripped, and empty tokens are dropped. -/
def flatten_profiles (v : ProfilesInput) : List String :=
  match v with
  | none => []
  | some (Sum.inl s) => splitTokens s
  | some (Sum.inr items) => items.flatMap splitTokens

/-- The `seen`-set loop shared by `_ensure_all_and_dedupe`: keep the first
occurrence of each element not already in `seen`. -/
def dedupeAux : List String → List String → List String
  | [], _ => []
  | p :: rest, seen =>
      if p ∈ seen then dedupeAux rest seen
      else p :: dedupeAux rest (p :: seen)

/-- `Service._ensure_all_and_dedupe` (src/composify/types.py): append
`"all"`, then keep first occurrences only. -/
def ensure_all_and_dedupe (v : List String) : List String :=
  dedupeAux (v ++ ["all"]) []

/-- Python `v or name` on an optional string: `None` and `""` are falsy
(`Service._default_container_name`). -/
def pyOrOpt (v : Option String) (b : String) : String :=
  match v with
  | none => b
  | some s => if s = "" then b else s

/-- Python `a or b` on strings: `""` is falsy
(`Service.to_compose_value`, `self.container_name or self.name`). -/
def pyOr (a b : String) : String :=
  if a = "" then b else a

/-- The default `environment` mapping of the `Service` model
(src/composify/types.py, `default_factory`). -/
def default_environment : List (String × String) :=
  [("PUID", "$PUID"), ("PGID", "$PGID"), ("TZ", "$TZ")]

/-- The `Service` pydantic model after field validation
(src/composify/types.py). `profiles` holds the normalised list and
`container_name` the validated string (`_default_container_name` always
returns a `str`). -/
structure Service where
  name : String
  image : String
  container_path : String
  profiles : List String
  restart : Option String
  expose : Bool
  internal_port : Int
  external_port : Option Int
  middleware_chain : Option String
  container_name : String
  environment : List (String × String)
deriving DecidableEq

/-- The raw constructor inputs to `Service(...)` before validation. -/
structure RawService where
  name : String
  image : String
  container_path : String
  profiles : ProfilesInput
  restart : Option String
  expose : Bool
  internal_port : Int
  external_port : Option Int
  middleware_chain : Option String
  container_name : Option String
  environment : List (String × String)

/-- Pydantic construction of a `Service`: runs `_flatten_profiles` then
`_ensure_all_and_dedupe` on `profiles`, and `_default_container_name`
(`v or info.data.get("name")`) on `container_name`. -/
def mkService (r : RawService) : Service :=
  { name := r.name
    image := r.image
    container_path := r.container_path
    profiles := ensure_all_and_dedupe (flatten_profiles r.profiles)
    restart := r.restart
    expose := r.expose
    internal_port := r.internal_port
    external_port := r.external_port
    middleware_chain := r.middleware_chain
    container_name := pyOrOpt r.container_name r.name
    environment := r.environment }

/-- Computed `volumes` property (src/composify/types.py). -/
def Service.volumes (s : Service) : List String :=
  ["${DOCKERDIR}/" ++ s.name ++ ":" ++ s.container_path]

/-- Computed `networks` property: `["t2_proxy"] if self.expose else None`. -/
def Service.networks (s : Service) : Option (List String) :=
  if s.expose then some ["t2_proxy"] else none

/-- Computed `labels` property (src/composify/types.py): `None` unless
exposed; otherwise five Traefik entries keyed by the service name, plus a
middlewares entry when `middleware_chain` is truthy. Python dict insertion
order is kept by the association list. -/
def Service.labels (s : Service) : Option (List (String × String)) :=
  if s.expose = false then none
  else
    let n := s.name
    let base : List (String × String) :=
      [("traefik.enable", "true"),
       ("traefik.http.routers." ++ n ++ "-rtr.entrypoints", "web-secure"),
       ("traefik.http.routers." ++ n ++ "-rtr.rule",
        "Host(`" ++ n ++ ".${DOMAINNAME}`)"),
       ("traefik.http.routers." ++ n ++ "-rtr.service", n ++ "-svc"),
       ("traefik.http.services." ++ n ++ "-svc.loadbalancer.server.port",
        toString s.internal_port)]
    some (base ++
      (match s.middleware_chain with
       | some mc =>
           if mc = "" then []
           else [("traefik.http.routers." ++ n ++ "-rtr.middlewares",
                  mc ++ "@file")]
       | none => []))

/-- Computed `ports` property: `None` when exposed; otherwise one
`"{ext}:{internal}"` mapping where `ext` falls back to the internal port
only when `external_port is None`. -/
def Service.ports (s : Service) : Option (List String) :=
  if s.expose then none
  else
    let ext : Int :=
      match s.external_port with
      | some e => e
      | none => s.internal_port
    some [toString ext ++ ":" ++ toString s.internal_port]

/-- `Service.to_compose_value` (src/composify/types.py): builds the emitted
mapping in the source's exact insertion order, with the source's exact
presence conditions (`is not None` for restart, truthiness for profiles /
networks / environment / labels / ports, and the `expose` gate). -/
def Service.to_compose_value (s : Service) : List (String × YVal) :=
  let out0 : List (String × YVal) := [("image", YVal.str s.image)]
  let out1 := out0 ++ [("container_name", YVal.str (pyOr s.container_name s.name))]
  let out2 := out1 ++
    (match s.restart with
     | some r => [("restart", YVal.str r)]
     | none => [])
  let out3 := out2 ++
    (if s.profiles.isEmpty then [] else [("profiles", YVal.list s.profiles)])
  let out4 := out3 ++
    (if s.expose then
       (match s.networks with
        | some nets => if nets.isEmpty then [] else [("networks", YVal.list nets)]
        | none => [])
     else [])
  let out5 := out4 ++ [("volumes", YVal.list s.volumes)]
  let out6 := out5 ++
    (if s.environment.isEmpty then [] else [("environment", YVal.map s.environment)])
  let out7 := out6 ++
    (if s.expose then
       (match s.labels with
        | some lbls => if lbls.isEmpty then [] else [("labels", YVal.map lbls)]
        | none => [])
     else
       (match s.ports with
        | some prts => if prts.isEmpty then [] else [("ports", YVal.list prts)]
        | none => []))
  out7

/-- The value stored under one service name inside a compose file's
`services:` mapping: either a projection written by this tool, or
arbitrary pre-existing YAML content carried opaquely. -/
inductive SvcBody where
  | proj (v : List (String × YVal))
  | other (raw : String)
deriving DecidableEq

/-- `CommentedMap` assignment `m[k] = v`: replaces the value in place at
the key's existing position, or appends the key at the end. -/
def assocSet {β : Type} (l : List (String × β)) (k : String) (v : β) :
    List (String × β) :=
  match l with
  | [] => [(k, v)]
  | (k', v') :: rest =>
      if k' = k then (k, v) :: rest else (k', v') :: assocSet rest k v

/-- A parsed per-application compose document: its `services:` key (with
its mapping in insertion order) plus all other content, untouched by the
operations modelled here and carried opaquely. -/
structure ComposeDoc where
  services : Sect (List (String × SvcBody))
  others : String
deriving DecidableEq

/-- The empty `CommentedMap()` fallback document. -/
def ComposeDoc.empty : ComposeDoc :=
  { services := Sect.absent, others := "" }

/-- The parse result of an existing compose file: a mapping, or some
non-mapping YAML (scalar, sequence, or an empty file, which `or
CommentedMap()` also replaces). -/
inductive ComposeTop where
  | cmap (d : ComposeDoc)
  | nonMap
deriving DecidableEq

/-- A compose file on disk: `none` when the path does not exist. -/
def ComposeFile : Type := Option ComposeTop

/-- `upsert_service_in_file` (src/composify/utils.py): missing file is a
`SystemExit` (NotFound); a non-mapping parse is replaced by an empty
`CommentedMap`; a missing or non-mapping `services:` is a `SystemExit`
(MissingSection); otherwise `services[svc.name] = svc.to_compose_value()`
is assigned and the document written back. The returned document is the
new file content; an error writes nothing. -/
def upsert_service_in_file (file : ComposeFile) (svc : Service) :
    Except Err ComposeDoc :=
  match file with
  | none => Except.error Err.notFound
  | some top =>
      let data := match top with
        | ComposeTop.cmap d => d
        | ComposeTop.nonMap => ComposeDoc.empty
      match data.services with
      | Sect.val svcs =>
          Except.ok { data with
            services := Sect.val (assocSet svcs svc.name (SvcBody.proj svc.to_compose_value)) }
      | _ => Except.error Err.missingSection

/-- `get_existing_service_names` (src/composify/utils.py): missing file is
NotFound; missing or non-mapping `services:` is MissingSection; otherwise
the list of service names in order. -/
def get_existing_service_names (file : ComposeFile) :
    Except Err (List String) :=
  match file with
  | none => Except.error Err.notFound
  | some top =>
      let data := match top with
        | ComposeTop.cmap d => d
        | ComposeTop.nonMap => ComposeDoc.empty
      match data.services with
      | Sect.val svcs => Except.ok (svcs.map Prod.fst)
      | _ => Except.error Err.missingSection

/-- `unique_name_cb` (src/composify/cli/cli.py): the chosen service name
is rejected with a `BadParameter` ("already exists") when it is among the
existing service names of the selected compose file; errors from
`get_existing_service_names` propagate as `ClickException`s. -/
def unique_name_check (file : ComposeFile) (value : String) :
    Except Err String :=
  match get_existing_service_names file with
  | Except.error e => Except.error e
  | Except.ok existing =>
      if value ∈ existing then Except.error Err.alreadyExists
      else Except.ok value

/-- One entry of the main file's `include:` sequence: its path string and
the comment attached before it, when comment attachment succeeded. -/
structure IncludeEntry where
  path : String
  comment : Option String
deriving DecidableEq

/-- A parsed main compose document: its `include:` key plus all other
content, untouched by the include mutator and carried opaquely. -/
structure MainDoc where
  include? : Sect (List IncludeEntry)
  others : String
deriving DecidableEq

/-- The empty `CommentedMap()` main document. -/
def MainDoc.empty : MainDoc :=
  { include? := Sect.absent, others := "" }

/-- The parse result of an existing main compose file. -/
inductive MainTop where
  | cmap (d : MainDoc)
  | nonMap
deriving DecidableEq

/-- The main compose file on disk: `none` when the path does not exist. -/
def MainFile : Type := Option MainTop

/-- `load_main_compose` (src/composify/utils.py): a missing file and a
non-`CommentedMap` parse both yield an empty document; never an error. -/
def load_main_compose (file : MainFile) : MainDoc :=
  match file with
  | none => MainDoc.empty
  | some (MainTop.cmap d) => d
  | some MainTop.nonMap => MainDoc.empty

/-- `append_to_include_with_comment` (src/composify/utils.py). `attachOk`
is the outcome of `yaml_set_comment_before_after_key`, whose failure is
swallowed by `try/except: pass`. A `None` (absent or null) `include:`
becomes a fresh empty sequence; a non-sequence is a `SystemExit`; a
string-equal existing entry returns `False` with no write (the file state
is returned unchanged); otherwise the path is appended — with the comment
exactly when attachment succeeded — and the document written back. The
result pairs the new file state with the written flag. -/
def append_to_include_with_comment (file : MainFile)
    (rel_include_path comment_text : String) (attachOk : Bool) :
    Except Err (MainFile × Bool) :=
  let data := load_main_compose file
  match data.include? with
  | Sect.wrongType => Except.error Err.notAList
  | inc =>
      let entries := match inc with
        | Sect.val es => es
        | _ => []
      if rel_include_path ∈ entries.map IncludeEntry.path then
        Except.ok (file, false)
      else
        let newEntry : IncludeEntry :=
          { path := rel_include_path
            comment := if attachOk then some comment_text else none }
        let newDoc := { data with include? := Sect.val (entries ++ [newEntry]) }
        Except.ok (some (MainTop.cmap newDoc), true)

/-- Modelled from the spec: the fixed, deterministic ordered candidate
pool of private IPv4 /24 blocks used by `pick_unused_subnet`. The
function is imported by src/composify/cli/cli.py but its definition is
not under src/, so the concrete pool entries here are representative;
only the pool's fixed order is relied on. -/
def SUBNET_POOL : List String :=
  ["192.168.90.0/24", "192.168.91.0/24", "192.168.92.0/24",
   "192.168.93.0/24", "192.168.94.0/24", "192.168.95.0/24",
   "192.168.96.0/24", "192.168.97.0/24", "192.168.98.0/24",
   "192.168.99.0/24"]

/-- Modelled from the spec: `pick_unused_subnet(usedCidrs)` returns the
first pool candidate not present in the used set, and fails with
Exhausted when every candidate is used (the definition is not under
src/; only its caller in src/composify/cli/cli.py is). -/
def pick_unused_subnet (used : List String) : Except Err String :=
  match SUBNET_POOL.find? (fun c => !(used.contains c)) with
  | some c => Except.ok c
  | none => Except.error Err.exhausted

/-!  Helper lemmas about the service projection.  -/

/-- The emitted key list of `to_compose_value`, with each key's exact
presence condition. -/
theorem toComposeValue_keys_eq (s : Service) :
    (s.to_compose_value).map Prod.fst =
      ["image", "container_name"]
      ++ (match s.restart with
          | some _ => ["restart"]
          | none => [])
      ++ (if s.profiles.isEmpty then [] else ["profiles"])
      ++ (if s.expose then ["networks"] else [])
      ++ ["volumes"]
      ++ (if s.environment.isEmpty then [] else ["environment"])
      ++ (if s.expose then ["labels"] else ["ports"]) := by
  cases hE : s.expose <;> cases hR : s.restart <;>
    by_cases hP : s.profiles.isEmpty <;>
    by_cases hEnv : s.environment.isEmpty <;>
    simp [Service.to_compose_value, Service.networks, Service.labels,
          Service.ports, Service.volumes, hE, hR, hP, hEnv]

/-- C1: for every Service, the projection contains `labels` iff `expose`
is true and `ports` iff `expose` is false; no projection contains both
keys or neither key. -/
theorem projection_labels_ports_exclusive (s : Service) :
    (("labels" ∈ (s.to_compose_value).map Prod.fst) ↔ s.expose = true)
  ∧ (("ports" ∈ (s.to_compose_value).map Prod.fst) ↔ s.expose = false)
  ∧ ¬(("labels" ∈ (s.to_compose_value).map Prod.fst)
        ∧ ("ports" ∈ (s.to_compose_value).map Prod.fst))
  ∧ (("labels" ∈ (s.to_compose_value).map Prod.fst)
        ∨ ("ports" ∈ (s.to_compose_value).map Prod.fst)) := by
  rw [toComposeValue_keys_eq]
  cases hE : s.expose <;> cases hR : s.restart <;>
    by_cases hP : s.profiles.isEmpty <;>
    by_cases hEnv : s.environment.isEmpty <;>
    simp [hP, hEnv]

/-- A concrete exposed service, used to instantiate universally
quantified projection theorems. -/
def svcExposed : Service :=
  { name := "app"
    image := "ghcr.io/org/app:latest"
    container_path := "/config"
    profiles := ["media", "all"]
    restart := some "unless-stopped"
    expose := true
    internal_port := 8080
    external_port := none
    middleware_chain := some "chain-basic"
    container_name := "app"
    environment := default_environment }

/-- A concrete non-exposed service. -/
def svcPlain : Service :=
  { svcExposed with expose := false, middleware_chain := none }

/-- C1 witness at a concrete exposed service. -/
theorem projection_labels_ports_exclusive_witness :
    (("labels" ∈ (svcExposed.to_compose_value).map Prod.fst)
        ↔ svcExposed.expose = true)
  ∧ (("ports" ∈ (svcExposed.to_compose_value).map Prod.fst)
        ↔ svcExposed.expose = false)
  ∧ ¬(("labels" ∈ (svcExposed.to_compose_value).map Prod.fst)
        ∧ ("ports" ∈ (svcExposed.to_compose_value).map Prod.fst))
  ∧ (("labels" ∈ (svcExposed.to_compose_value).map Prod.fst)
        ∨ ("ports" ∈ (svcExposed.to_compose_value).map Prod.fst)) :=
  projection_labels_ports_exclusive svcExposed

/-- C5: the projection's keys are always a sublist of the fixed order
image, container_name, restart, profiles, networks, volumes, environment,
labels, ports; every emitted value is neither a null placeholder nor an
empty sequence nor an empty mapping. -/
theorem projection_key_order_and_omission (s : Service) :
    ((s.to_compose_value).map Prod.fst).Sublist
      ["image", "container_name", "restart", "profiles", "networks",
       "volumes", "environment", "labels", "ports"]
  ∧ YVal.null ∉ (s.to_compose_value).map Prod.snd
  ∧ YVal.list [] ∉ (s.to_compose_value).map Prod.snd
  ∧ YVal.map [] ∉ (s.to_compose_value).map Prod.snd := by
  refine ⟨?_, ?_, ?_, ?_⟩
  · rw [toComposeValue_keys_eq]
    cases hE : s.expose <;> cases hR : s.restart <;>
      by_cases hP : s.profiles.isEmpty <;>
      by_cases hEnv : s.environment.isEmpty <;>
      simp [hP, hEnv] <;> decide
  all_goals
    cases hE : s.expose <;> cases hR : s.restart <;>
      cases hM : s.middleware_chain <;>
      by_cases hP : s.profiles.isEmpty <;>
      by_cases hEnv : s.environment.isEmpty <;>
      simp_all [Service.to_compose_value, Service.networks, Service.labels,
                Service.ports, Service.volumes, List.isEmpty_iff]

/-- C5 witness at a concrete non-exposed service. -/
theorem projection_key_order_and_omission_witness :
    ((svcPlain.to_compose_value).map Prod.fst).Sublist
      ["image", "container_name", "restart", "profiles", "networks",
       "volumes", "environment", "labels", "ports"]
  ∧ YVal.null ∉ (svcPlain.to_compose_value).map Prod.snd
  ∧ YVal.list [] ∉ (svcPlain.to_compose_value).map Prod.snd
  ∧ YVal.map [] ∉ (svcPlain.to_compose_value).map Prod.snd :=
  projection_key_order_and_omission svcPlain

/-- C9: when `container_name` is constructed from `None` or the empty
string, the emitted `container_name` equals the service's `name`; a
non-empty given value is emitted unchanged. -/
theorem container_name_defaults_to_name (r : RawService) :
    ((r.container_name = none ∨ r.container_name = some "") →
        ((mkService r).to_compose_value).lookup "container_name"
          = some (YVal.str r.name))
  ∧ (∀ c, r.container_name = some c → c ≠ "" →
        ((mkService r).to_compose_value).lookup "container_name"
          = some (YVal.str c)) := by
  constructor
  · intro h
    rcases h with h | h <;>
      simp [Service.to_compose_value, mkService, List.lookup, h,
            pyOrOpt, pyOr]
  · intro c hc hcne
    simp [Service.to_compose_value, mkService, List.lookup, hc,
          pyOrOpt, pyOr, hcne]

/-- A concrete raw constructor input with no container_name given. -/
def rawNoCName : RawService :=
  { name := "app"
    image := "ghcr.io/org/app:latest"
    container_path := "/config"
    profiles := some (Sum.inr ["media"])
    restart := some "unless-stopped"
    expose := false
    internal_port := 8080
    external_port := none
    middleware_chain := none
    container_name := none
    environment := default_environment }

/-- A concrete raw constructor input with an explicit container_name. -/
def rawWithCName : RawService :=
  { rawNoCName with container_name := some "custom" }

/-- C9 witness: defaulting at `none`, and pass-through of `"custom"`. -/
theorem container_name_defaults_to_name_witness :
    (((mkService rawNoCName).to_compose_value).lookup "container_name"
        = some (YVal.str rawNoCName.name))
  ∧ (((mkService rawWithCName).to_compose_value).lookup "container_name"
        = some (YVal.str "custom")) :=
  ⟨(container_name_defaults_to_name rawNoCName).1 (Or.inl rfl),
   (container_name_defaults_to_name rawWithCName).2 "custom" rfl (by decide)⟩

/-- Python truthiness of the optional `middleware_chain` string: `None`
and `""` are falsy. -/
def pyTruthy : Option String → Bool
  | none => false
  | some s => s != ""

/-- C10: for an exposed service, `labels` is exactly the five fixed
Traefik routing entries keyed by the service name, followed by the single
`.middlewares` entry (valued `<chain>@file`) exactly when
`middleware_chain` is a non-empty string. -/
theorem labels_traefik_content (s : Service) (h : s.expose = true) :
    ∃ m, s.labels = some m
      ∧ m = [("traefik.enable", "true"),
             ("traefik.http.routers." ++ s.name ++ "-rtr.entrypoints",
              "web-secure"),
             ("traefik.http.routers." ++ s.name ++ "-rtr.rule",
              "Host(`" ++ s.name ++ ".${DOMAINNAME}`)"),
             ("traefik.http.routers." ++ s.name ++ "-rtr.service",
              s.name ++ "-svc"),
             ("traefik.http.services." ++ s.name
                ++ "-svc.loadbalancer.server.port",
              toString s.internal_port)]
            ++ (match s.middleware_chain with
                | some mc =>
                    if mc = "" then []
                    else [("traefik.http.routers." ++ s.name
                             ++ "-rtr.middlewares", mc ++ "@file")]
                | none => [])
      ∧ m.length = (if pyTruthy s.middleware_chain then 6 else 5) := by
  cases hM : s.middleware_chain with
  | none => simp [Service.labels, h, hM, pyTruthy]
  | some mc =>
      by_cases hmc : mc = "" <;>
        simp [Service.labels, h, hM, pyTruthy, hmc]

/-- C10 witness at a concrete exposed service with middleware chain
`"chain-basic"`. -/
theorem labels_traefik_content_witness :
    ∃ m, svcExposed.labels = some m
      ∧ m = [("traefik.enable", "true"),
             ("traefik.http.routers." ++ svcExposed.name
                ++ "-rtr.entrypoints", "web-secure"),
             ("traefik.http.routers." ++ svcExposed.name ++ "-rtr.rule",
              "Host(`" ++ svcExposed.name ++ ".${DOMAINNAME}`)"),
             ("traefik.http.routers." ++ svcExposed.name ++ "-rtr.service",
              svcExposed.name ++ "-svc"),
             ("traefik.http.services." ++ svcExposed.name
                ++ "-svc.loadbalancer.server.port",
              toString svcExposed.internal_port)]
            ++ (match svcExposed.middleware_chain with
                | some mc =>
                    if mc = "" then []
                    else [("traefik.http.routers." ++ svcExposed.name
                             ++ "-rtr.middlewares", mc ++ "@file")]
                | none => [])
      ∧ m.length = (if pyTruthy svcExposed.middleware_chain then 6 else 5) :=
  labels_traefik_content svcExposed rfl

/-- C7: loading the main compose file when it does not exist yields an
empty document and no error (the function cannot fail), while
`upsert_service_in_file` on a missing target file fails with NotFound and
produces no document to write. -/
theorem missing_file_load_vs_upsert :
    load_main_compose none = MainDoc.empty
  ∧ ∀ svc : Service,
      upsert_service_in_file none svc = Except.error Err.notFound :=
  ⟨rfl, fun _ => rfl⟩

/-- A compose document that already contains a service named `"app"`. -/
def docWithApp : ComposeDoc :=
  { services := Sect.val [("app", SvcBody.other "pre-existing")]
    others := "rest" }

/-- C2 counterexample: on a document already containing the service's
name, `upsert_service_in_file` does not fail with AlreadyExists — it
returns a successfully written document in which the existing entry has
been silently replaced. -/
theorem upsert_overwrite_counterexample :
    upsert_service_in_file (some (ComposeTop.cmap docWithApp)) svcPlain
      = Except.ok
          { docWithApp with
            services := Sect.val
              [("app", SvcBody.proj svcPlain.to_compose_value)] }
  ∧ Sect.val [("app", SvcBody.proj svcPlain.to_compose_value)]
      ≠ docWithApp.services := by
  constructor
  · rfl
  · decide

/-- C2 (amended): `upsert_service_in_file` itself never checks for a name
collision — it silently replaces the existing entry in place and writes;
the AlreadyExists guard lives upstream in the CLI name callback
(`unique_name_cb`), which rejects a name already present in the target
file before the upsert is ever invoked. -/
theorem upsert_replaces_and_cli_guard (d : ComposeDoc)
    (svcs : List (String × SvcBody)) (svc : Service)
    (hs : d.services = Sect.val svcs)
    (hm : svc.name ∈ svcs.map Prod.fst) :
    upsert_service_in_file (some (ComposeTop.cmap d)) svc
      = Except.ok
          { d with
            services := Sect.val
              (assocSet svcs svc.name (SvcBody.proj svc.to_compose_value)) }
  ∧ unique_name_check (some (ComposeTop.cmap d)) svc.name
      = Except.error Err.alreadyExists := by
  constructor
  · simp [upsert_service_in_file, hs]
  · simp [unique_name_check, get_existing_service_names, hs, hm]

/-- C2 amended-claim witness at a concrete document and service. -/
theorem upsert_replaces_and_cli_guard_witness :
    (upsert_service_in_file (some (ComposeTop.cmap docWithApp)) svcPlain
      = Except.ok
          { docWithApp with
            services := Sect.val
              (assocSet [("app", SvcBody.other "pre-existing")]
                svcPlain.name (SvcBody.proj svcPlain.to_compose_value)) })
  ∧ unique_name_check (some (ComposeTop.cmap docWithApp)) svcPlain.name
      = Except.error Err.alreadyExists :=
  upsert_replaces_and_cli_guard docWithApp
    [("app", SvcBody.other "pre-existing")] svcPlain rfl (by decide)

/-- The entries of a loaded document's `include:` sequence (empty when the
key is absent, null, or not a sequence). -/
def includeEntriesOf (d : MainDoc) : List IncludeEntry :=
  match d.include? with
  | Sect.val es => es
  | _ => []

/-- The path strings of a loaded document's `include:` sequence. -/
def includePathsOf (d : MainDoc) : List String :=
  (includeEntriesOf d).map IncludeEntry.path

/-- When the path is already string-equal to an include entry, the append
is a reported no-op and the file state is unchanged. -/
theorem append_to_include_present (st : MainFile) (p c : String)
    (ao : Bool) (h : p ∈ includePathsOf (load_main_compose st)) :
    append_to_include_with_comment st p c ao = Except.ok (st, false) := by
  rcases hI : (load_main_compose st).include? with _ | _ | es
  · simp [includePathsOf, includeEntriesOf, hI] at h
  · simp [includePathsOf, includeEntriesOf, hI] at h
  · simp [includePathsOf, includeEntriesOf, hI] at h
    simp [append_to_include_with_comment, hI, h]

/-- When the path is new and `include:` is not a non-sequence, the path is
appended (with the comment exactly when attachment succeeded) and the
document is written. -/
theorem append_to_include_new (st : MainFile) (p c : String) (ao : Bool)
    (h : p ∉ includePathsOf (load_main_compose st))
    (hW : (load_main_compose st).include? ≠ Sect.wrongType) :
    append_to_include_with_comment st p c ao
      = Except.ok
          (some (MainTop.cmap
            { load_main_compose st with
              include? := Sect.val
                (includeEntriesOf (load_main_compose st)
                  ++ [{ path := p
                        comment := if ao then some c else none }]) }),
           true) := by
  rcases hI : (load_main_compose st).include? with _ | _ | es
  · simp [append_to_include_with_comment, includeEntriesOf, hI]
  · exact absurd hI hW
  · simp [includePathsOf, includeEntriesOf, hI] at h
    simp [append_to_include_with_comment, includeEntriesOf, hI, h]
    exact h

/-- C4: on a main-compose document whose `include` sequence already holds
a string-equal entry for the path, the append reports a no-op with no
write; and calling the append twice with the same path leaves, after the
second call, exactly the file content produced by the first call. -/
theorem append_include_idempotent (st : MainFile) (p c : String)
    (ao : Bool) :
    (∀ d es, st = some (MainTop.cmap d) → d.include? = Sect.val es →
        p ∈ es.map IncludeEntry.path →
        append_to_include_with_comment st p c ao = Except.ok (st, false))
  ∧ (∀ st₁ w (c₂ : String) (ao₂ : Bool),
        append_to_include_with_comment st p c ao = Except.ok (st₁, w) →
        append_to_include_with_comment st₁ p c₂ ao₂
          = Except.ok (st₁, false)) := by
  constructor
  · rintro d es rfl hinc hmem
    apply append_to_include_present
    simp [load_main_compose, includePathsOf, includeEntriesOf, hinc]
    simpa using hmem
  · rintro st₁ w c₂ ao₂ h1
    by_cases hW : (load_main_compose st).include? = Sect.wrongType
    · simp [append_to_include_with_comment, hW] at h1
    · by_cases hp : p ∈ includePathsOf (load_main_compose st)
      · rw [append_to_include_present st p c ao hp] at h1
        simp only [Except.ok.injEq, Prod.mk.injEq] at h1
        obtain ⟨h1a, _⟩ := h1
        subst h1a
        exact append_to_include_present st p c₂ ao₂ hp
      · rw [append_to_include_new st p c ao hp hW] at h1
        simp only [Except.ok.injEq, Prod.mk.injEq] at h1
        obtain ⟨h1a, _⟩ := h1
        subst h1a
        apply append_to_include_present
        simp [load_main_compose, includePathsOf, includeEntriesOf]

/-- A concrete main compose document with one include entry. -/
def mainDocFixture : MainDoc :=
  { include? := Sect.val
      [{ path := "stacks/app1/docker-compose.yml", comment := some "App1" }]
    others := "services-and-networks" }

/-- The concrete main compose file holding `mainDocFixture`. -/
def mainFileFixture : MainFile := some (MainTop.cmap mainDocFixture)

/-- C4 witness: appending an already-present path is a reported no-op,
and a write followed by a second append with the same path leaves the
first call's file content unchanged. -/
theorem append_include_idempotent_witness :
    append_to_include_with_comment mainFileFixture
        "stacks/app1/docker-compose.yml" "App1" true
      = Except.ok (mainFileFixture, false) :=
  (append_include_idempotent mainFileFixture
      "stacks/app1/docker-compose.yml" "App1" true).1
    mainDocFixture
    [{ path := "stacks/app1/docker-compose.yml", comment := some "App1" }]
    rfl rfl (by decide)

/-- C8: when the path is not yet present, a comment-attachment failure
does not abort the append — the path is still appended (with no comment
attached) and the document is still written. -/
theorem append_include_survives_comment_failure (st : MainFile)
    (p c : String)
    (h : p ∉ includePathsOf (load_main_compose st))
    (hW : (load_main_compose st).include? ≠ Sect.wrongType) :
    append_to_include_with_comment st p c false
      = Except.ok
          (some (MainTop.cmap
            { load_main_compose st with
              include? := Sect.val
                (includeEntriesOf (load_main_compose st)
                  ++ [{ path := p, comment := none }]) }),
           true) :=
  append_to_include_new st p c false h hW

/-- C8 witness: a comment-attachment failure on a concrete file still
appends the new path and writes. -/
theorem append_include_survives_comment_failure_witness :
    append_to_include_with_comment mainFileFixture
        "stacks/app2/docker-compose.yml" "App2" false
      = Except.ok
          (some (MainTop.cmap
            { load_main_compose mainFileFixture with
              include? := Sect.val
                (includeEntriesOf (load_main_compose mainFileFixture)
                  ++ [{ path := "stacks/app2/docker-compose.yml"
                        comment := none }]) }),
           true) :=
  append_include_survives_comment_failure mainFileFixture
    "stacks/app2/docker-compose.yml" "App2" (by decide) (by decide)

/-- A found element of `List.find?` splits the list at the first
satisfying position. -/
theorem find?_eq_some_split {α : Type} (p : α → Bool) :
    ∀ (l : List α) (c : α), l.find? p = some c →
      ∃ l₁ l₂, l = l₁ ++ c :: l₂ ∧ p c = true ∧ ∀ d ∈ l₁, p d = false := by
  intro l
  induction l with
  | nil => intro c h; simp [List.find?] at h
  | cons a t ih =>
      intro c h
      by_cases ha : p a = true
      · rw [List.find?_cons_of_pos _ ha] at h
        obtain rfl : a = c := by injection h
        exact ⟨[], t, rfl, ha, by intro d hd; simp at hd⟩
      · rw [List.find?_cons_of_neg _ ha] at h
        obtain ⟨l₁, l₂, rfl, hc, hall⟩ := ih c h
        refine ⟨a :: l₁, l₂, rfl, hc, ?_⟩
        intro d hd
        rcases List.mem_cons.mp hd with rfl | hd'
        · exact Bool.not_eq_true _ ▸ by simpa using ha
        · exact hall d hd'

/-- C6: the subnet allocator is a pure function of the used set: any
returned candidate is the first pool entry not in the used set; the empty
used set yields the pool's first candidate; a fully used pool yields
Exhausted. -/
theorem pick_unused_subnet_first_free (used : List String) :
    (∀ c, pick_unused_subnet used = Except.ok c →
        ∃ l₁ l₂, SUBNET_POOL = l₁ ++ c :: l₂ ∧ c ∉ used
          ∧ ∀ d ∈ l₁, d ∈ used)
  ∧ (used = [] → pick_unused_subnet used = Except.ok "192.168.90.0/24")
  ∧ ((∀ c ∈ SUBNET_POOL, c ∈ used) →
        pick_unused_subnet used = Except.error Err.exhausted) := by
  refine ⟨?_, ?_, ?_⟩
  · intro c hc
    unfold pick_unused_subnet at hc
    cases hF : SUBNET_POOL.find? (fun c => !(used.contains c)) with
    | none => rw [hF] at hc; simp at hc
    | some c' =>
        rw [hF] at hc
        obtain rfl : c' = c := by injection hc
        obtain ⟨l₁, l₂, hsplit, hpc, hall⟩ := find?_eq_some_split _ _ _ hF
        refine ⟨l₁, l₂, hsplit, ?_, ?_⟩
        · simpa using hpc
        · intro d hd
          simpa using hall d hd
  · rintro rfl; rfl
  · intro hall
    have hF : SUBNET_POOL.find? (fun c => !(used.contains c)) = none := by
      rw [List.find?_eq_none]
      intro a ha
      simp [hall a ha]
    unfold pick_unused_subnet
    rw [hF]

/-- C6 witness: on the empty used set the allocator returns the pool's
first candidate. -/
theorem pick_unused_subnet_first_free_witness :
    pick_unused_subnet [] = Except.ok "192.168.90.0/24" :=
  (pick_unused_subnet_first_free []).2.1 rfl

/-- Membership in the first-occurrence dedupe loop: an element survives
iff it occurs in the input and was not already seen. -/
theorem dedupeAux_mem (a : String) : ∀ (l seen : List String),
    a ∈ dedupeAux l seen ↔ a ∈ l ∧ a ∉ seen := by
  intro l
  induction l with
  | nil => intro seen; simp [dedupeAux]
  | cons p rest ih =>
      intro seen
      by_cases hp : p ∈ seen
      · rw [dedupeAux, if_pos hp, ih]
        constructor
        · rintro ⟨h1, h2⟩
          exact ⟨List.mem_cons_of_mem _ h1, h2⟩
        · rintro ⟨h1, h2⟩
          rcases List.mem_cons.mp h1 with rfl | h1'
          · exact absurd hp h2
          · exact ⟨h1', h2⟩
      · rw [dedupeAux, if_neg hp]
        constructor
        · intro h
          rcases List.mem_cons.mp h with rfl | h'
          · exact ⟨List.mem_cons_self _ _, hp⟩
          · obtain ⟨h1, h2⟩ := (ih _).mp h'
            exact ⟨List.mem_cons_of_mem _ h1,
                   fun hs => h2 (List.mem_cons_of_mem _ hs)⟩
        · rintro ⟨h1, h2⟩
          rcases List.mem_cons.mp h1 with rfl | h1'
          · exact List.mem_cons_self _ _
          · by_cases hap : a = p
            · subst hap; exact List.mem_cons_self _ _
            · refine List.mem_cons_of_mem _ ((ih _).mpr ⟨h1', ?_⟩)
              intro hs
              rcases List.mem_cons.mp hs with h | h
              · exact hap h
              · exact h2 h

/-- The first-occurrence dedupe loop yields a duplicate-free list. -/
theorem dedupeAux_nodup : ∀ (l seen : List String),
    (dedupeAux l seen).Nodup := by
  intro l
  induction l with
  | nil => intro seen; simp [dedupeAux]
  | cons p rest ih =>
      intro seen
      by_cases hp : p ∈ seen
      · rw [dedupeAux, if_pos hp]; exact ih seen
      · rw [dedupeAux, if_neg hp]
        refine List.nodup_cons.mpr ⟨?_, ih _⟩
        intro hmem
        exact ((dedupeAux_mem p rest (p :: seen)).mp hmem).2
          (List.mem_cons_self _ _)

/-- The first-occurrence dedupe loop lists its elements in strictly
increasing order of their first occurrence in the input. -/
theorem dedupeAux_pairwise_indexOf : ∀ (l seen : List String),
    (dedupeAux l seen).Pairwise
      (fun a b => l.indexOf a < l.indexOf b) := by
  intro l
  induction l with
  | nil => intro seen; simp [dedupeAux]
  | cons p rest ih =>
      intro seen
      by_cases hp : p ∈ seen
      · rw [dedupeAux, if_pos hp]
        refine List.Pairwise.imp_of_mem ?_ (ih seen)
        intro a b ha hb hr
        have hA : a ∉ seen := ((dedupeAux_mem a rest seen).mp ha).2
        have hB : b ∉ seen := ((dedupeAux_mem b rest seen).mp hb).2
        have hap : p ≠ a := fun h => hA (h ▸ hp)
        have hbp : p ≠ b := fun h => hB (h ▸ hp)
        rw [List.indexOf_cons_ne _ hap, List.indexOf_cons_ne _ hbp]
        exact Nat.succ_lt_succ hr
      · rw [dedupeAux, if_neg hp]
        refine List.Pairwise.cons ?_ ?_
        · intro b hb
          have hB := (dedupeAux_mem b rest (p :: seen)).mp hb
          have hbp : p ≠ b := fun h => hB.2 (h ▸ List.mem_cons_self p seen)
          rw [List.indexOf_cons_self, List.indexOf_cons_ne _ hbp]
          exact Nat.succ_pos _
        · refine List.Pairwise.imp_of_mem ?_ (ih (p :: seen))
          intro a b ha hb hr
          have hA := (dedupeAux_mem a rest (p :: seen)).mp ha
          have hB := (dedupeAux_mem b rest (p :: seen)).mp hb
          have hap : p ≠ a := fun h => hA.2 (h ▸ List.mem_cons_self p seen)
          have hbp : p ≠ b := fun h => hB.2 (h ▸ List.mem_cons_self p seen)
          rw [List.indexOf_cons_ne _ hap, List.indexOf_cons_ne _ hbp]
          exact Nat.succ_lt_succ hr

/-- The `"all"`-ensuring dedupe of any token list: `"all"` appears exactly
once; every other token appears once iff it occurred in the input; the
non-`"all"` entries are ordered by first occurrence in the input. -/
theorem ensure_all_and_dedupe_spec (toks : List String) :
    (ensure_all_and_dedupe toks).count "all" = 1
  ∧ (∀ s : String, s ≠ "all" →
      (ensure_all_and_dedupe toks).count s
        = if s ∈ toks then 1 else 0)
  ∧ ((ensure_all_and_dedupe toks).filter (fun s => s ≠ "all")).Pairwise
      (fun a b => toks.indexOf a < toks.indexOf b) := by
  have hnd : (ensure_all_and_dedupe toks).Nodup :=
    dedupeAux_nodup (toks ++ ["all"]) []
  have hmem : ∀ a : String,
      a ∈ ensure_all_and_dedupe toks ↔ a ∈ toks ∨ a = "all" := by
    intro a
    rw [ensure_all_and_dedupe, dedupeAux_mem]
    simp
  refine ⟨?_, ?_, ?_⟩
  · exact List.count_eq_one_of_mem hnd ((hmem "all").mpr (Or.inr rfl))
  · intro s hs
    by_cases hin : s ∈ toks
    · rw [if_pos hin]
      exact List.count_eq_one_of_mem hnd ((hmem s).mpr (Or.inl hin))
    · rw [if_neg hin]
      refine List.count_eq_zero.mpr ?_
      intro habs
      rcases (hmem s).mp habs with h | h
      · exact hin h
      · exact hs h
  · have hpw : (ensure_all_and_dedupe toks).Pairwise
        (fun a b => (toks ++ ["all"]).indexOf a
                      < (toks ++ ["all"]).indexOf b) :=
      dedupeAux_pairwise_indexOf (toks ++ ["all"]) []
    have hpwf : ((ensure_all_and_dedupe toks).filter
          (fun s => s ≠ "all")).Pairwise
        (fun a b => (toks ++ ["all"]).indexOf a
                      < (toks ++ ["all"]).indexOf b) :=
      List.Pairwise.sublist (List.filter_sublist _) hpw
    refine List.Pairwise.imp_of_mem ?_ hpwf
    intro a b ha hb hr
    have haT : a ∈ toks := by
      have h1 := List.mem_of_mem_filter ha
      have h2 : a ≠ "all" := by
        have := List.of_mem_filter ha
        simpa using this
      rcases (hmem a).mp h1 with h | h
      · exact h
      · exact absurd h h2
    have hbT : b ∈ toks := by
      have h1 := List.mem_of_mem_filter hb
      have h2 : b ≠ "all" := by
        have := List.of_mem_filter hb
        simpa using this
      rcases (hmem b).mp h1 with h | h
      · exact h
      · exact absurd h h2
    rwa [List.indexOf_append_of_mem haT,
         List.indexOf_append_of_mem hbT] at hr

/-- C3: for every raw profiles input (None, a string, or a list, with
comma-separated items, surrounding whitespace, duplicates or an explicit
"all"), the normalised profile list contains "all" exactly once, every
other distinct token exactly once iff it was among the flattened tokens,
and nothing else; the non-"all" entries keep first-occurrence order. -/
theorem normalize_profiles_spec (v : ProfilesInput) :
    (ensure_all_and_dedupe (flatten_profiles v)).count "all" = 1
  ∧ (∀ s : String, s ≠ "all" →
      (ensure_all_and_dedupe (flatten_profiles v)).count s
        = if s ∈ flatten_profiles v then 1 else 0)
  ∧ ((ensure_all_and_dedupe (flatten_profiles v)).filter
        (fun s => s ≠ "all")).Pairwise
      (fun a b => (flatten_profiles v).indexOf a
                    < (flatten_profiles v).indexOf b) :=
  ensure_all_and_dedupe_spec (flatten_profiles v)

/-- C3 witness at the concrete input `["b, a", "all", " a ", ""]`:
the normalisation yields counts 1 for "all", "a" and "b", count 0 for an
unseen token, and first-occurrence order on the non-"all" entries. -/
theorem normalize_profiles_spec_witness :
    ((ensure_all_and_dedupe
        (flatten_profiles (some (Sum.inr ["b, a", "all", " a ", ""])))).count
      "all" = 1)
  ∧ ((ensure_all_and_dedupe
        (flatten_profiles (some (Sum.inr ["b, a", "all", " a ", ""])))).count
      "b" = 1)
  ∧ ((ensure_all_and_dedupe
        (flatten_profiles (some (Sum.inr ["b, a", "all", " a ", ""])))).count
      "zzz" = 0) :=
  ⟨(normalize_profiles_spec (some (Sum.inr ["b, a", "all", " a ", ""]))).1,
   by
     have h := (normalize_profiles_spec
        (some (Sum.inr ["b, a", "all", " a ", ""]))).2.1 "b" (by decide)
     rw [h]
     decide,
   by
     have h := (normalize_profiles_spec
        (some (Sum.inr ["b, a", "all", " a ", ""]))).2.1 "zzz" (by decide)
     rw [h]
     decide⟩
